import Mathlib

/-!
Shallow embedding of `pkg/disttask/framework/taskexecutor/manager.go`.

The Manager's per-round behavior is modelled as pure functions from a
`ManagerState` (the live executor set, keyed by task id) and a `RoundEnv`
(the answers the external collaborators give during one reconciliation
round: the registry fetch, the slot manager's `canAlloc` verdicts, the
factory lookup and each executor's `Init` outcome) to a new state plus a
trace of observable effects (`Event`): cancellation signals, registry
writes, slot allocation/release, executor launches, and log-only errors.
Because each of these collaborator calls is made at most once per task per
round, answering them through a per-task oracle is an exact model of one
round.  The identity-recovery retry loop and `Stop`/`Start` are modelled
the same way.
-/

namespace DistTask

/-- Task states mirroring `proto.TaskState`; only `running`, `reverting`
and `pausing` are acted on by the Manager. -/
inductive TaskState
  | pending
  | running
  | succeed
  | failed
  | reverting
  | reverted
  | cancelled
  | pausing
  | paused
  | resuming
  | modifying
  deriving DecidableEq, Repr

/-- The fields of a fetched `proto.Task` snapshot that `manager.go` reads:
ID, Type (as an abstract tag), State and Concurrency. -/
structure Task where
  id : Int
  taskType : Nat
  state : TaskState
  concurrency : Int
  deriving DecidableEq, Repr

/-- Observable effects the Manager performs during a round or during an
executor unit's lifetime. -/
inductive Event
  | logErr
  | cancelRunningSubtask (taskID : Int)
  | cancelExecutor (taskID : Int)
  | pauseSubtasks (taskID : Int)
  | failSubtask (taskID : Int)
  | allocSlot (taskID : Int)
  | startExecutor (taskID : Int)
  | freeSlot (taskID : Int)
  | delExecutor (taskID : Int)
  | closeExecutor (taskID : Int)
  | runStep (n : Nat)
  | cancelContext
  | waitExecutors
  | waitLoops
  | launchHandleTasksLoop
  | launchRecoverMetaLoop
  deriving DecidableEq, Repr

/-- The Manager's mutable state visible to the claims: the id-keyed live
executor set `mu.taskExecutors` (modelled by its key set). -/
structure ManagerState where
  taskExecutors : List Int
  deriving DecidableEq, Repr

/-- Oracle answers of the external collaborators during one reconciliation
round.  `fetch` is `taskTable.GetTaskExecInfoByExecID`; `canAlloc` is
`slotManager.canAlloc` (admit flag, tasks to preempt); `hasFactory` is
whether `GetTaskExecutorFactory` returns non-nil for a type tag; `initErr`
is the outcome of `executor.Init` for a task id (`none` = success,
`some b` = error with `IsRetryableError = b`); `pauseErr` is whether
`taskTable.PauseSubtasks` returns an error. -/
structure RoundEnv where
  fetch : Except Nat (List Task)
  canAlloc : Task → Bool × List Task
  hasFactory : Nat → Bool
  initErr : Int → Option Bool
  pauseErr : Int → Bool

/-- `isExecutorStarted`: whether a live executor exists for the task id. -/
def isExecutorStarted (s : ManagerState) (taskID : Int) : Bool :=
  taskID ∈ s.taskExecutors

/-- `addTaskExecutor`: map assignment keyed by the executor's task id. -/
def addTaskExecutor (s : ManagerState) (taskID : Int) : ManagerState :=
  { taskExecutors := if taskID ∈ s.taskExecutors then s.taskExecutors
                     else taskID :: s.taskExecutors }

/-- `delTaskExecutor`: delete the executor's key from the map. -/
def delTaskExecutor (s : ManagerState) (taskID : Int) : ManagerState :=
  { taskExecutors := s.taskExecutors.filter (fun x => x ≠ taskID) }

/-- `cancelRunningSubtaskOf`: signal `CancelRunningSubtask` to the live
executor of the task, if one exists. -/
def cancelRunningSubtaskOf (s : ManagerState) (taskID : Int) : List Event :=
  if taskID ∈ s.taskExecutors then [Event.cancelRunningSubtask taskID] else []

/-- `handlePausingTask`: signal `Cancel` to the live executor if one
exists, then unconditionally issue `PauseSubtasks` to the registry; the
second component is whether `PauseSubtasks` returned an error. -/
def handlePausingTask (env : RoundEnv) (s : ManagerState) (taskID : Int) :
    List Event × Bool :=
  ((if taskID ∈ s.taskExecutors then [Event.cancelExecutor taskID] else [])
     ++ [Event.pauseSubtasks taskID],
   env.pauseErr taskID)

/-- `cancelTaskExecutors`: signal `Cancel` to the live executor of each
listed task, skipping tasks with no live executor. -/
def cancelTaskExecutors (s : ManagerState) (tasks : List Task) : List Event :=
  tasks.filterMap (fun t =>
    if t.id ∈ s.taskExecutors then some (Event.cancelExecutor t.id) else none)

/-- `startTaskExecutor`: resolve the factory (absence is persisted via
`logErrAndPersist` with a nil executor, hence always `FailSubtask`), run
`Init` (failure goes through `logErrAndPersist`, which persists only when
the executor classifies the error non-retryable), and on success register
the executor, allocate its slots and launch its run unit. -/
def startTaskExecutor (env : RoundEnv) (s : ManagerState) (task : Task) :
    ManagerState × List Event :=
  if env.hasFactory task.taskType = false then
    (s, [Event.logErr, Event.failSubtask task.id])
  else
    match env.initErr task.id with
    | some retryable =>
      if retryable then (s, [Event.logErr])
      else (s, [Event.logErr, Event.failSubtask task.id])
    | none =>
      (addTaskExecutor s task.id,
       [Event.allocSlot task.id, Event.startExecutor task.id])

/-- `handleExecutableTasks`: walk the priority-ordered candidates; a
non-empty preemption set cancels exactly those executors and breaks the
loop; a plain deny skips the candidate; otherwise the executor starts. -/
def handleExecutableTasks (env : RoundEnv) :
    ManagerState → List Task → ManagerState × List Event
  | s, [] => (s, [])
  | s, task :: rest =>
    let res := env.canAlloc task
    if res.2 ≠ [] then
      (s, cancelTaskExecutors s res.2)
    else if res.1 = false then
      handleExecutableTasks env s rest
    else
      let p := startTaskExecutor env s task
      let q := handleExecutableTasks env p.1 rest
      (q.1, p.2 ++ q.2)

/-- The classification loop of `handleTasks`: collect start-candidates in
fetch order and perform the per-state side effects (cancel signal for
`reverting`, cancel-plus-pause for `pausing`, error logging). -/
def handleTasksClassify (env : RoundEnv) (s : ManagerState) :
    List Task → List Task × List Event
  | [] => ([], [])
  | t :: rest =>
    let tail := handleTasksClassify env s rest
    match t.state with
    | TaskState.running =>
      if t.id ∈ s.taskExecutors then tail else (t :: tail.1, tail.2)
    | TaskState.reverting =>
      let c := cancelRunningSubtaskOf s t.id
      if t.id ∈ s.taskExecutors then (tail.1, c ++ tail.2)
      else (t :: tail.1, c ++ tail.2)
    | TaskState.pausing =>
      let p := handlePausingTask env s t.id
      (tail.1, (p.1 ++ (if p.2 then [Event.logErr] else [])) ++ tail.2)
    | _ => tail

/-- `handleTasks`: one reconciliation round — fetch, classify, then admit
the candidates (a fetch error is only logged and ends the round). -/
def handleTasks (env : RoundEnv) (s : ManagerState) : ManagerState × List Event :=
  match env.fetch with
  | Except.error _ => (s, [Event.logErr])
  | Except.ok tasks =>
    let cl := handleTasksClassify env s tasks
    if cl.1.length > 0 then
      let r := handleExecutableTasks env s cl.1
      (r.1, cl.2 ++ r.2)
    else
      (s, cl.2)

/-- The executor unit launched by `startTaskExecutor`: run the executor's
`Run` (its internal behavior is an opaque list of steps — exiting
normally, with an error, via cancellation or by panic only truncates that
list), then the deferred cleanup unconditionally frees the slots, removes
the executor from the live set and calls `Close`, in that order. -/
def executorUnitTrace (runSteps : List Nat) (taskID : Int) : List Event :=
  runSteps.map Event.runStep
    ++ [Event.freeSlot taskID, Event.delExecutor taskID, Event.closeExecutor taskID]

/-- The state effect of the executor unit's deferred cleanup. -/
def executorUnitFinal (s : ManagerState) (taskID : Int) : ManagerState :=
  delTaskExecutor s taskID

/-- `retrySQLTimes`. -/
def retrySQLTimes : Nat := 30

/-- The retry loop body of `recoverMeta`: `attempt i` is the result of the
`RecoverMeta` upsert on iteration `i` (`none` = success), `ctxErr i` the
result of `ctx.Err()` checked after a failed iteration `i`.  Returns the
function's return value together with the number of attempts made and the
number of 500 ms sleeps performed. -/
def recoverMetaAux (attempt ctxErr : Nat → Option Nat) :
    Nat → Nat → Option Nat → Nat → Option Nat × Nat × Nat
  | i, 0, errAcc, sleeps => (errAcc, i, sleeps)
  | i, r + 1, _, sleeps =>
    match attempt i with
    | none => (none, i + 1, sleeps)
    | some e =>
      match ctxErr i with
      | some ce => (some ce, i + 1, sleeps)
      | none => recoverMetaAux attempt ctxErr (i + 1) r (some e) (sleeps + 1)

/-- `recoverMeta`: up to `retrySQLTimes` attempts starting from a nil
error accumulator. -/
def recoverMeta (attempt ctxErr : Nat → Option Nat) : Option Nat × Nat × Nat :=
  recoverMetaAux attempt ctxErr 0 retrySQLTimes none 0

/-- `Start`: launch the two loops on the wait group and return nil. -/
def Start (_s : ManagerState) : Option Nat × List Event :=
  (none, [Event.launchHandleTasksLoop, Event.launchRecoverMetaLoop])

/-- `Stop`: cancel the shared context, wait for the executor wait group,
then wait for the loop wait group. -/
def Stop : List Event :=
  [Event.cancelContext, Event.waitExecutors, Event.waitLoops]

/-! Concrete fixtures used to evaluate the model on closed inputs. -/

/-- A manager with no live executor. -/
def stEmpty : ManagerState := ⟨[]⟩

/-- A manager with one live executor, for task id 1. -/
def stOne : ManagerState := ⟨[1]⟩

/-- A running task of id 1 holding 6 slots (spec scenario task A). -/
def taskA : Task := ⟨1, 0, TaskState.running, 6⟩

/-- A running task of id 2 needing 4 slots (spec scenario task B). -/
def taskB : Task := ⟨2, 0, TaskState.running, 4⟩

/-- A small running task of id 3. -/
def taskC : Task := ⟨3, 0, TaskState.running, 1⟩

/-- A small running task of id 4. -/
def taskD : Task := ⟨4, 0, TaskState.running, 1⟩

/-- A reverting task sharing id 1 with the live executor. -/
def taskRev : Task := ⟨1, 0, TaskState.reverting, 2⟩

/-- A pausing task of id 5 with no live executor. -/
def taskPau : Task := ⟨5, 0, TaskState.pausing, 2⟩

/-- A round in which task 2 needs preemption of task A and every other
admission succeeds outright. -/
def envPre1 : RoundEnv :=
  ⟨Except.ok [taskB],
   fun t => if t.id = 2 then (false, [taskA]) else (true, []),
   fun _ => true, fun _ => none, fun _ => false⟩

/-- A round in which task 2 is denied without eviction and every other
admission succeeds outright. -/
def envDeny : RoundEnv :=
  ⟨Except.ok [taskB, taskC],
   fun t => if t.id = 2 then (false, []) else (true, []),
   fun _ => true, fun _ => none, fun _ => false⟩

/-- A round fetching a reverting task (live) and a pausing task (not
live), plus a start-candidate of id 2. -/
def envRound : RoundEnv :=
  ⟨Except.ok [taskB, taskRev, taskPau],
   fun _ => (true, []), fun _ => true, fun _ => none, fun _ => false⟩

/-- A round whose registry fetch fails. -/
def envFetchErr : RoundEnv :=
  ⟨Except.error 4, fun _ => (true, []), fun _ => true, fun _ => none,
   fun _ => false⟩

/-- A round in which no executor factory exists for any type tag. -/
def envNoFac : RoundEnv :=
  ⟨Except.ok [], fun _ => (true, []), fun _ => false, fun _ => none,
   fun _ => false⟩

/-- A round in which every `Init` fails with a retryable error. -/
def envInitRetry : RoundEnv :=
  ⟨Except.ok [], fun _ => (true, []), fun _ => true, fun _ => some true,
   fun _ => false⟩

/-- An attempt oracle failing 29 times and succeeding on the 30th. -/
def attemptW : Nat → Option Nat := fun i => if i < 29 then some 7 else none

/-- A context that is never cancelled. -/
def ctxOk : Nat → Option Nat := fun _ => none

end DistTask

namespace DistTask

/-- C2: whatever the executor's `Run` does before returning (normally,
with an error, via cancellation, or by panicking partway through its
steps), the launched unit's guaranteed cleanup frees the slots, removes
the executor from the live set and closes it, each exactly once and in
that order, and afterwards the executor is no longer started. -/
theorem executor_cleanup_guarantee (runSteps : List Nat) (s : ManagerState)
    (taskID : Int) :
    (executorUnitTrace runSteps taskID).count (Event.freeSlot taskID) = 1 ∧
    (executorUnitTrace runSteps taskID).count (Event.delExecutor taskID) = 1 ∧
    (executorUnitTrace runSteps taskID).count (Event.closeExecutor taskID) = 1 ∧
    (∃ pre, executorUnitTrace runSteps taskID =
        pre ++ [Event.freeSlot taskID, Event.delExecutor taskID,
                Event.closeExecutor taskID]) ∧
    isExecutorStarted (executorUnitFinal s taskID) taskID = false := by
  refine ⟨?_, ?_, ?_, ⟨runSteps.map Event.runStep, rfl⟩, ?_⟩
  · simp [executorUnitTrace, List.count_append, List.count_cons, beq_iff_eq,
      List.count_eq_zero]
  · simp [executorUnitTrace, List.count_append, List.count_cons, beq_iff_eq,
      List.count_eq_zero]
  · simp [executorUnitTrace, List.count_append, List.count_cons, beq_iff_eq,
      List.count_eq_zero]
  · simp [isExecutorStarted, executorUnitFinal, delTaskExecutor,
      List.mem_filter]

/-- C4: a candidate denied with an empty eviction set is skipped and the
round continues with the remaining candidates unchanged. -/
theorem deny_without_eviction_continues (env : RoundEnv) (s : ManagerState)
    (t : Task) (rest : List Task)
    (h : env.canAlloc t = (false, [])) :
    handleExecutableTasks env s (t :: rest) = handleExecutableTasks env s rest := by
  simp [handleExecutableTasks, h]

/-- C4 witness: task 2 is denied without eviction, the round continues,
and the smaller task 3 is still admitted in the same round. -/
theorem deny_without_eviction_continues_witness :
    envDeny.canAlloc taskB = (false, []) ∧
    handleExecutableTasks envDeny stEmpty [taskB, taskC] =
      handleExecutableTasks envDeny stEmpty [taskC] ∧
    Event.startExecutor 3 ∈ (handleExecutableTasks envDeny stEmpty [taskB, taskC]).2 :=
  ⟨by decide,
   deny_without_eviction_continues envDeny stEmpty taskB [taskC] (by decide),
   by decide⟩

/-- C5: a missing factory or a failed `Init` leaves the manager state
unchanged (no executor registered, no slots reserved): a missing factory
or a non-retryable `Init` error produces a `FailSubtask` registry write,
while a retryable `Init` error is only logged. -/
theorem startup_failure_no_registration (env : RoundEnv) (s : ManagerState)
    (t : Task)
    (h : env.hasFactory t.taskType = false ∨ env.initErr t.id ≠ none) :
    startTaskExecutor env s t =
      (s, if env.hasFactory t.taskType = false then
            [Event.logErr, Event.failSubtask t.id]
          else if env.initErr t.id = some true then
            [Event.logErr]
          else
            [Event.logErr, Event.failSubtask t.id]) := by
  by_cases hf : env.hasFactory t.taskType = false
  · simp [startTaskExecutor, hf]
  · rcases h with h | h
    · exact absurd h hf
    · cases ho : env.initErr t.id with
      | none => exact absurd ho h
      | some b => cases b <;> simp [startTaskExecutor, hf, ho]

/-- C5 witness: with no factory for the type tag the task fails via
`FailSubtask` with the state unchanged, and with a retryable init error
the trace is only a log entry. -/
theorem startup_failure_no_registration_witness :
    (envNoFac.hasFactory taskC.taskType = false ∨ envNoFac.initErr taskC.id ≠ none) ∧
    startTaskExecutor envNoFac stEmpty taskC =
      (stEmpty, if envNoFac.hasFactory taskC.taskType = false then
            [Event.logErr, Event.failSubtask taskC.id]
          else if envNoFac.initErr taskC.id = some true then
            [Event.logErr]
          else
            [Event.logErr, Event.failSubtask taskC.id]) ∧
    startTaskExecutor envInitRetry stEmpty taskC =
      (stEmpty, if envInitRetry.hasFactory taskC.taskType = false then
            [Event.logErr, Event.failSubtask taskC.id]
          else if envInitRetry.initErr taskC.id = some true then
            [Event.logErr]
          else
            [Event.logErr, Event.failSubtask taskC.id]) :=
  ⟨Or.inl rfl,
   startup_failure_no_registration envNoFac stEmpty taskC (Or.inl rfl),
   startup_failure_no_registration envInitRetry stEmpty taskC (Or.inr (by decide))⟩

/-- C7: `Stop` cancels the shared context, then waits for the executor
units, then waits for the two loops — each step exactly once and in
exactly that order. -/
theorem stop_order :
    Stop.count Event.cancelContext = 1 ∧
    Stop.count Event.waitExecutors = 1 ∧
    Stop.count Event.waitLoops = 1 ∧
    Stop.indexOf Event.cancelContext < Stop.indexOf Event.waitExecutors ∧
    Stop.indexOf Event.waitExecutors < Stop.indexOf Event.waitLoops := by
  decide

/-- C9: when the per-round registry fetch fails, the round only logs the
error: the state is unchanged and no other effect is produced. -/
theorem fetch_error_no_action (env : RoundEnv) (s : ManagerState) (e : Nat)
    (h : env.fetch = Except.error e) :
    handleTasks env s = (s, [Event.logErr]) := by
  simp [handleTasks, h]

/-- C9 witness: a failing fetch leaves the one-executor manager unchanged
with a single log event. -/
theorem fetch_error_no_action_witness :
    envFetchErr.fetch = Except.error 4 ∧
    handleTasks envFetchErr stOne = (stOne, [Event.logErr]) :=
  ⟨rfl, fetch_error_no_action envFetchErr stOne 4 rfl⟩

/-- C10: `Start` launches exactly the reconciliation loop and the
identity-recovery loop and always returns nil. -/
theorem start_launches_loops_returns_nil (s : ManagerState) :
    Start s = (none, [Event.launchHandleTasksLoop, Event.launchRecoverMetaLoop]) :=
  rfl

/-- Helper: `cancelTaskExecutors` emits one `Cancel` per listed task with
a live executor, in list order, and nothing else. -/
theorem cancelTaskExecutors_eq_map_filter (s : ManagerState) (ts : List Task) :
    cancelTaskExecutors s ts =
      (ts.filter (fun u => decide (u.id ∈ s.taskExecutors))).map
        (fun u => Event.cancelExecutor u.id) := by
  induction ts with
  | nil => rfl
  | cons u ts ih =>
    by_cases h : u.id ∈ s.taskExecutors <;>
      simp [cancelTaskExecutors, List.filterMap_cons, List.filter_cons, h] <;>
      simpa [cancelTaskExecutors] using ih

/-- Helper: when no candidate in `pre` needs preemption, one round
processes `pre ++ rest` as `pre` followed by `rest` from the state the
`pre` prefix produced. -/
theorem handleExecutableTasks_append (env : RoundEnv) (pre rest : List Task)
    (hpre : ∀ u ∈ pre, (env.canAlloc u).2 = []) :
    ∀ s, handleExecutableTasks env s (pre ++ rest) =
      ((handleExecutableTasks env (handleExecutableTasks env s pre).1 rest).1,
       (handleExecutableTasks env s pre).2 ++
         (handleExecutableTasks env (handleExecutableTasks env s pre).1 rest).2) := by
  induction pre with
  | nil => intro s; simp [handleExecutableTasks]
  | cons u pre ih =>
    intro s
    have hu : (env.canAlloc u).2 = [] := hpre u (List.mem_cons_self _ _)
    have hpre2 : ∀ v ∈ pre, (env.canAlloc v).2 = [] :=
      fun v hv => hpre v (List.mem_cons_of_mem _ hv)
    by_cases hb : (env.canAlloc u).1 = false
    · simp [handleExecutableTasks, hu, hb, ih hpre2]
    · simp [handleExecutableTasks, hu, hb, ih hpre2, List.append_assoc]

/-- C1: if evaluation of a round's priority-ordered candidate list reaches
a candidate whose admission check returns a non-empty eviction set, the
round's effects are those of the earlier candidates followed by `Cancel`
signals to exactly the live executors of that eviction set; the preempting
candidate and every later candidate are not started and contribute no
effect, and the state is the one the earlier candidates produced. -/
theorem preemption_halts_round (env : RoundEnv) (s : ManagerState)
    (pre : List Task) (t : Task) (post : List Task)
    (hpre : ∀ u ∈ pre, (env.canAlloc u).2 = [])
    (ht : (env.canAlloc t).2 ≠ []) :
    handleExecutableTasks env s (pre ++ t :: post) =
      ((handleExecutableTasks env s pre).1,
       (handleExecutableTasks env s pre).2 ++
         cancelTaskExecutors (handleExecutableTasks env s pre).1
           (env.canAlloc t).2) ∧
    cancelTaskExecutors (handleExecutableTasks env s pre).1 (env.canAlloc t).2 =
      (((env.canAlloc t).2).filter
          (fun u =>
            decide (u.id ∈ (handleExecutableTasks env s pre).1.taskExecutors))).map
        (fun u => Event.cancelExecutor u.id) := by
  constructor
  · rw [handleExecutableTasks_append env pre (t :: post) hpre s]
    have hstep : handleExecutableTasks env (handleExecutableTasks env s pre).1
        (t :: post) =
        ((handleExecutableTasks env s pre).1,
         cancelTaskExecutors (handleExecutableTasks env s pre).1
           (env.canAlloc t).2) := by
      simp [handleExecutableTasks, ht]
    rw [hstep]
  · exact cancelTaskExecutors_eq_map_filter _ _

/-- C1 witness: with one live executor for task 1, candidate 3 admitted,
then candidate 2 preempting task 1, the round cancels executor 1 and
never reaches the candidate after it. -/
theorem preemption_halts_round_witness :
    (envPre1.canAlloc taskC).2 = [] ∧
    (envPre1.canAlloc taskB).2 ≠ [] ∧
    handleExecutableTasks envPre1 stOne ([taskC] ++ taskB :: [taskD]) =
      ((handleExecutableTasks envPre1 stOne [taskC]).1,
       (handleExecutableTasks envPre1 stOne [taskC]).2 ++
         cancelTaskExecutors (handleExecutableTasks envPre1 stOne [taskC]).1
           (envPre1.canAlloc taskB).2) :=
  ⟨by decide, by decide,
   (preemption_halts_round envPre1 stOne [taskC] taskB [taskD]
      (by decide) (by decide)).1⟩

/-- Helper: the retry loop makes at most `i + r` attempts when it starts
at attempt index `i` with `r` iterations left. -/
theorem recoverMetaAux_attempts_le (a c : Nat → Option Nat) :
    ∀ (r i : Nat) (acc : Option Nat) (sl : Nat),
      (recoverMetaAux a c i r acc sl).2.1 ≤ i + r := by
  intro r
  induction r with
  | zero => intro i acc sl; simp [recoverMetaAux]
  | succ r ih =>
    intro i acc sl
    cases ha : a i with
    | none => simp [recoverMetaAux, ha]
    | some e =>
      cases hc : c i with
      | some ce => simp [recoverMetaAux, ha, hc]
      | none =>
        have := ih (i + 1) (some e) (sl + 1)
        simp only [recoverMetaAux, ha, hc]
        omega

/-- Helper: `m` consecutive failed attempts with an uncancelled context
advance the retry loop by `m` iterations, accumulating the last error and
one sleep per failure. -/
theorem recoverMetaAux_fail_chain (a c : Nat → Option Nat) :
    ∀ (m i r : Nat) (acc : Option Nat) (sl : Nat),
      (∀ j, j < m → a (i + j) ≠ none ∧ c (i + j) = none) →
      recoverMetaAux a c i (m + r) acc sl =
        recoverMetaAux a c (i + m) r
          (if m = 0 then acc else a (i + m - 1)) (sl + m) := by
  intro m
  induction m with
  | zero => intro i r acc sl _; simp
  | succ m ih =>
    intro i r acc sl h
    have h0 := h 0 (Nat.succ_pos m)
    obtain ⟨e, he⟩ := Option.ne_none_iff_exists'.mp (by simpa using h0.1)
    have hc : c i = none := by simpa using h0.2
    have hrest : ∀ j, j < m → a (i + 1 + j) ≠ none ∧ c (i + 1 + j) = none := by
      intro j hj
      have := h (j + 1) (by omega)
      have hidx : i + (j + 1) = i + 1 + j := by omega
      rw [hidx] at this
      exact this
    have hstep : recoverMetaAux a c i (m + 1 + r) acc sl =
        recoverMetaAux a c (i + 1) (m + r) (some e) (sl + 1) := by
      have harith : m + 1 + r = (m + r) + 1 := by omega
      rw [harith]
      simp [recoverMetaAux, he, hc]
    rw [hstep, ih (i + 1) r (some e) (sl + 1) hrest]
    have hacc : (if m = 0 then some e else a (i + 1 + m - 1)) =
        (if m + 1 = 0 then acc else a (i + (m + 1) - 1)) := by
      cases m with
      | zero => simp [he]
      | succ m2 =>
        simp only [Nat.succ_ne_zero, if_false]
        congr 1
        omega
    have hidx2 : i + 1 + m = i + (m + 1) := by omega
    have hsl : sl + 1 + m = sl + (m + 1) := by omega
    rw [hacc, hidx2, hsl]

/-- C8: one invocation of `recoverMeta` makes at most 30 attempts;
if the first `i` attempts fail with the context alive and attempt `i`
succeeds, it returns nil after `i + 1` attempts and `i` sleeps (so 29
failures followed by a success on the 30th attempt return nil); if the
context is cancelled after failed attempt `i`, it returns the context's
error; and if all 30 attempts fail it returns the 30th attempt's error. -/
theorem recoverMeta_retry_contract (a c : Nat → Option Nat) (i e : Nat)
    (hi : i < retrySQLTimes) :
    (recoverMeta a c).2.1 ≤ retrySQLTimes ∧
    ((∀ j, j < i → a j ≠ none ∧ c j = none) → a i = none →
        recoverMeta a c = (none, i + 1, i)) ∧
    ((∀ j, j < i → a j ≠ none ∧ c j = none) → a i ≠ none → c i = some e →
        (recoverMeta a c).1 = some e) ∧
    ((∀ j, j < retrySQLTimes → a j ≠ none ∧ c j = none) →
        (recoverMeta a c).1 = a 29 ∧ (recoverMeta a c).2.1 = retrySQLTimes) := by
  have hi30 : i < 30 := hi
  have hsplit : (30 : Nat) = i + (30 - i) := by omega
  have hchain : ∀ (acc : Option Nat),
      (∀ j, j < i → a j ≠ none ∧ c j = none) →
      recoverMeta a c =
        recoverMetaAux a c i (30 - i) (if i = 0 then none else a (i - 1)) i := by
    intro acc hfail
    have h2 : ∀ j, j < i → a (0 + j) ≠ none ∧ c (0 + j) = none := by
      intro j hj; simpa using hfail j hj
    have := recoverMetaAux_fail_chain a c i 0 (30 - i) none 0 h2
    calc recoverMeta a c = recoverMetaAux a c 0 (i + (30 - i)) none 0 := by
          have harith : i + (30 - i) = 30 := by omega
          rw [recoverMeta, retrySQLTimes, harith]
      _ = recoverMetaAux a c (0 + i) (30 - i) (if i = 0 then none else a (0 + i - 1))
            (0 + i) := this
      _ = recoverMetaAux a c i (30 - i) (if i = 0 then none else a (i - 1)) i := by
          simp
  refine ⟨?_, ?_, ?_, ?_⟩
  · have := recoverMetaAux_attempts_le a c retrySQLTimes 0 none 0
    simpa [recoverMeta] using this
  · intro hfail hsucc
    rw [hchain none hfail]
    have hr : 30 - i = (30 - i - 1) + 1 := by omega
    rw [hr]
    simp [recoverMetaAux, hsucc]
  · intro hfail hai hci
    obtain ⟨ea, hea⟩ := Option.ne_none_iff_exists'.mp hai
    rw [hchain none hfail]
    have hr : 30 - i = (30 - i - 1) + 1 := by omega
    rw [hr]
    simp [recoverMetaAux, hea, hci]
  · intro hfail
    have h2 : ∀ j, j < 30 → a (0 + j) ≠ none ∧ c (0 + j) = none := by
      intro j hj
      simpa using hfail j (by simpa [retrySQLTimes] using hj)
    have := recoverMetaAux_fail_chain a c 30 0 0 none 0 h2
    have hrw : recoverMeta a c = (a 29, 30, 30) := by
      calc recoverMeta a c = recoverMetaAux a c 0 (30 + 0) none 0 := by
            simp [recoverMeta, retrySQLTimes]
        _ = recoverMetaAux a c (0 + 30) 0 (if 30 = 0 then none else a (0 + 30 - 1))
              (0 + 30) := this
        _ = (a 29, 30, 30) := by simp [recoverMetaAux]
    rw [hrw]
    exact ⟨rfl, rfl⟩

/-- C8 witness: with 29 failing attempts, an alive context and a
successful 30th attempt, `recoverMeta` returns nil after 30 attempts and
29 sleeps. -/
theorem recoverMeta_retry_contract_witness :
    29 < retrySQLTimes ∧ recoverMeta attemptW ctxOk = (none, 30, 29) :=
  ⟨by decide,
   (recoverMeta_retry_contract attemptW ctxOk 29 0 (by decide)).2.1
     (by decide) (by decide)⟩

/-- Helper: every classification event of the tail is an event of the
whole list. -/
theorem handleTasksClassify_mono (env : RoundEnv) (s : ManagerState)
    (u : Task) (rest : List Task) :
    ∀ e ∈ (handleTasksClassify env s rest).2,
      e ∈ (handleTasksClassify env s (u :: rest)).2 := by
  intro e he
  cases hu : u.state <;>
    simp [handleTasksClassify, hu, he] <;>
    split <;> simp [he]

/-- Helper: a fetched reverting task with a live executor contributes a
`CancelRunningSubtask` signal to the classification events. -/
theorem handleTasksClassify_mem_reverting (env : RoundEnv) (s : ManagerState)
    (tasks : List Task) (t : Task) (ht : t ∈ tasks)
    (hrev : t.state = TaskState.reverting) (hlive : t.id ∈ s.taskExecutors) :
    Event.cancelRunningSubtask t.id ∈ (handleTasksClassify env s tasks).2 := by
  induction tasks with
  | nil => cases ht
  | cons u rest ih =>
    rcases List.mem_cons.mp ht with h | h
    · subst h
      simp [handleTasksClassify, hrev, cancelRunningSubtaskOf, hlive]
    · exact handleTasksClassify_mono env s u rest _ (ih h)

/-- Helper: a fetched pausing task contributes a `PauseSubtasks` request
to the classification events, preceded by a `Cancel` signal when a live
executor exists for it. -/
theorem handleTasksClassify_mem_pausing (env : RoundEnv) (s : ManagerState)
    (tasks : List Task) (t : Task) (ht : t ∈ tasks)
    (hp : t.state = TaskState.pausing) :
    Event.pauseSubtasks t.id ∈ (handleTasksClassify env s tasks).2 ∧
    (t.id ∈ s.taskExecutors →
      Event.cancelExecutor t.id ∈ (handleTasksClassify env s tasks).2) := by
  induction tasks with
  | nil => cases ht
  | cons u rest ih =>
    rcases List.mem_cons.mp ht with h | h
    · subst h
      constructor
      · simp [handleTasksClassify, hp, handlePausingTask]
      · intro hlive
        simp [handleTasksClassify, hp, handlePausingTask, hlive]
    · obtain ⟨h1, h2⟩ := ih h
      exact ⟨handleTasksClassify_mono env s u rest _ h1,
        fun hlive => handleTasksClassify_mono env s u rest _ (h2 hlive)⟩

/-- Helper: classification events are part of the round's trace. -/
theorem handleTasks_trace_of_classify (env : RoundEnv) (s : ManagerState)
    (tasks : List Task) (hf : env.fetch = Except.ok tasks) :
    ∀ e ∈ (handleTasksClassify env s tasks).2, e ∈ (handleTasks env s).2 := by
  intro e he
  simp only [handleTasks, hf]
  split <;> simp [he]

/-- C3: in a round that fetched a task in `reverting` state with a live
local executor, that executor receives `CancelRunningSubtask`; for a
fetched task in `pausing` state the round issues `PauseSubtasks` to the
registry even when no executor is live, and signals `Cancel` to the
executor when one is. -/
theorem reconciliation_classification (env : RoundEnv) (s : ManagerState)
    (tasks : List Task) (t : Task)
    (hf : env.fetch = Except.ok tasks) (ht : t ∈ tasks) :
    (t.state = TaskState.reverting → t.id ∈ s.taskExecutors →
        Event.cancelRunningSubtask t.id ∈ (handleTasks env s).2) ∧
    (t.state = TaskState.pausing →
        Event.pauseSubtasks t.id ∈ (handleTasks env s).2 ∧
        (t.id ∈ s.taskExecutors →
            Event.cancelExecutor t.id ∈ (handleTasks env s).2)) := by
  constructor
  · intro hrev hlive
    exact handleTasks_trace_of_classify env s tasks hf _
      (handleTasksClassify_mem_reverting env s tasks t ht hrev hlive)
  · intro hp
    obtain ⟨h1, h2⟩ := handleTasksClassify_mem_pausing env s tasks t ht hp
    exact ⟨handleTasks_trace_of_classify env s tasks hf _ h1,
      fun hlive => handleTasks_trace_of_classify env s tasks hf _ (h2 hlive)⟩

/-- C3 witness: in a round fetching a reverting task with a live executor
and a pausing task without one, the trace contains the subtask
cancellation for the former and the pause request for the latter. -/
theorem reconciliation_classification_witness :
    envRound.fetch = Except.ok [taskB, taskRev, taskPau] ∧
    Event.cancelRunningSubtask 1 ∈ (handleTasks envRound stOne).2 ∧
    Event.pauseSubtasks 5 ∈ (handleTasks envRound stOne).2 :=
  ⟨rfl,
   (reconciliation_classification envRound stOne [taskB, taskRev, taskPau]
      taskRev rfl (by decide)).1 rfl (by decide),
   ((reconciliation_classification envRound stOne [taskB, taskRev, taskPau]
      taskPau rfl (by decide)).2 rfl).1⟩

/-- Helper: the start-candidates of one round are exactly the fetched
running or reverting tasks with no live executor, in fetch order. -/
theorem handleTasksClassify_fst (env : RoundEnv) (s : ManagerState) :
    ∀ tasks : List Task,
      (handleTasksClassify env s tasks).1 =
        tasks.filter (fun t =>
          decide ((t.state = TaskState.running ∨ t.state = TaskState.reverting)
            ∧ t.id ∉ s.taskExecutors)) := by
  intro tasks
  induction tasks with
  | nil => rfl
  | cons u rest ih =>
    by_cases hl : u.id ∈ s.taskExecutors <;>
      cases hu : u.state <;>
        simp [handleTasksClassify, hu, hl, List.filter_cons, ih]

/-- Helper: `addTaskExecutor` keeps the executor key set duplicate-free. -/
theorem addTaskExecutor_nodup (s : ManagerState) (taskID : Int)
    (h : s.taskExecutors.Nodup) :
    (addTaskExecutor s taskID).taskExecutors.Nodup := by
  by_cases hm : taskID ∈ s.taskExecutors <;> simp [addTaskExecutor, hm, h]

/-- Helper: `startTaskExecutor` keeps the executor key set
duplicate-free. -/
theorem startTaskExecutor_nodup (env : RoundEnv) (s : ManagerState) (t : Task)
    (h : s.taskExecutors.Nodup) :
    (startTaskExecutor env s t).1.taskExecutors.Nodup := by
  by_cases hf : env.hasFactory t.taskType = false
  · simpa [startTaskExecutor, hf] using h
  · cases ho : env.initErr t.id with
    | none => simpa [startTaskExecutor, hf, ho] using addTaskExecutor_nodup s t.id h
    | some b => cases b <;> simpa [startTaskExecutor, hf, ho] using h

/-- Helper: the admission walk keeps the executor key set
duplicate-free. -/
theorem handleExecutableTasks_nodup (env : RoundEnv) :
    ∀ (ts : List Task) (s : ManagerState), s.taskExecutors.Nodup →
      (handleExecutableTasks env s ts).1.taskExecutors.Nodup := by
  intro ts
  induction ts with
  | nil => intro s h; simpa [handleExecutableTasks] using h
  | cons u rest ih =>
    intro s h
    by_cases h2 : (env.canAlloc u).2 = []
    · by_cases h1 : (env.canAlloc u).1 = false
      · simpa [handleExecutableTasks, h2, h1] using ih s h
      · have := ih (startTaskExecutor env s u).1 (startTaskExecutor_nodup env s u h)
        simpa [handleExecutableTasks, h2, h1] using this
    · simpa [handleExecutableTasks, h2] using h

/-- Helper: one reconciliation round keeps the executor key set
duplicate-free. -/
theorem handleTasks_nodup (env : RoundEnv) (s : ManagerState)
    (h : s.taskExecutors.Nodup) :
    (handleTasks env s).1.taskExecutors.Nodup := by
  cases hf : env.fetch with
  | error e => simpa [handleTasks, hf] using h
  | ok tasks =>
    simp only [handleTasks, hf]
    split
    · exact handleExecutableTasks_nodup env _ s h
    · simpa using h

/-- C6: the live executor set holds at most one executor per task id: a
duplicate-free id-keyed set stays duplicate-free across a reconciliation
round and across an executor unit's cleanup, and a task enters the
round's start-candidate list only when no executor is live for its id. -/
theorem single_executor_invariant (env : RoundEnv) (s : ManagerState)
    (tasks : List Task) (t : Task) (taskID : Int)
    (hn : s.taskExecutors.Nodup) (hf : env.fetch = Except.ok tasks)
    (ht : t ∈ (handleTasksClassify env s tasks).1) :
    (handleTasks env s).1.taskExecutors.Nodup ∧
    t.id ∉ s.taskExecutors ∧
    (executorUnitFinal s taskID).taskExecutors.Nodup := by
  refine ⟨handleTasks_nodup env s hn, ?_, ?_⟩
  · rw [handleTasksClassify_fst env s tasks] at ht
    have hmem := List.mem_filter.mp ht
    have := of_decide_eq_true hmem.2
    exact this.2
  · simpa [executorUnitFinal, delTaskExecutor] using hn.filter _

/-- C6 witness: with one live executor for task 1 and a fetched
candidate of id 2, the set stays duplicate-free through the round and the
candidate has no live executor. -/
theorem single_executor_invariant_witness :
    stOne.taskExecutors.Nodup ∧
    taskB ∈ (handleTasksClassify envRound stOne [taskB, taskRev, taskPau]).1 ∧
    (handleTasks envRound stOne).1.taskExecutors.Nodup ∧
    taskB.id ∉ stOne.taskExecutors :=
  ⟨by decide, by decide,
   (single_executor_invariant envRound stOne [taskB, taskRev, taskPau] taskB 7
      (by decide) rfl (by decide)).1,
   (single_executor_invariant envRound stOne [taskB, taskRev, taskPau] taskB 7
      (by decide) rfl (by decide)).2.1⟩

end DistTask
